import Mathlib

/-!
Verification of the cohere-rag image-vectorization service against its
natural-language specification.  Each Python function relevant to the
claims is shallowly embedded as a Lean definition; network calls and
other external effects are abstracted as explicit function parameters.
-/

open List

/-! ## Sync Engine: `img_meta_processor_gdrive.process_single_uuid`

The per-tenant sync loop loads the existing artifact, enumerates the
Drive tree, filters out files whose string key
`f"{folder_path}/{name}"` already appears in the artifact, and appends
an entry for each new file that downloads, resizes and embeds
successfully.  Persistence (`save_checkpoint`, a whole-object upload of
the working copy) happens inside the loop when the 1-based attempt
index is divisible by `CHECKPOINT_INTERVAL` and that file succeeded,
and once after the loop when the working copy differs from the loaded
artifact. -/

/-- One artifact entry as appended by `process_single_uuid`
(`{"filename", "filepath", "folder_path", "embedding"}`); the embedding
payload is irrelevant to the key bookkeeping and is omitted. -/
structure SyncEntry where
  folder_path : String
  filename : String
  filepath : String
deriving DecidableEq

/-- One file returned by `list_files_in_drive_folder`
(`{'name', 'webViewLink', 'folder_path', ...}`). -/
structure DriveFile where
  name : String
  folder_path : String
  webViewLink : String
deriving DecidableEq

/-- The string key built for artifact entries:
`f"{item.get('folder_path', '')}/{item.get('filename', '')}"`. -/
def entryKey (e : SyncEntry) : String := e.folder_path ++ "/" ++ e.filename

/-- The string key built for Drive files:
`f"{f.get('folder_path', '')}/{f['name']}"`. -/
def fileKey (f : DriveFile) : String := f.folder_path ++ "/" ++ f.name

/-- Outcome of processing one file inside the loop: `ok` means
download, resize and embedding all succeeded and an entry was appended;
`resizeNone` is `resize_image_if_needed` returning `None` (the loop
executes `continue`); `embedNone` is `get_multimodal_embedding`
returning `None` (no entry appended); `exn` is any exception caught by
the per-file `except` block (the loop executes `continue`). -/
inductive FileOutcome where
  | ok
  | resizeNone
  | embedNone
  | exn
deriving DecidableEq

/-- `CHECKPOINT_INTERVAL = 100` in `img_meta_processor_gdrive.py`. -/
def CHECKPOINT_INTERVAL : ℕ := 100

/-- The entry dict appended for a successfully embedded Drive file. -/
def entryOf (f : DriveFile) : SyncEntry :=
  { folder_path := f.folder_path, filename := f.name, filepath := f.webViewLink }

/-- The `for i, file_info in enumerate(files_to_process, 1)` loop:
`i` is the 1-based attempt index; the checkpoint save runs inside the
`if embedding is not None` block when `i % CHECKPOINT_INTERVAL == 0`.
Returns the final working copy and the list of snapshots persisted by
`save_checkpoint` during the loop, in order. -/
def syncLoop (outcome : DriveFile → FileOutcome) :
    ℕ → List SyncEntry → List DriveFile → List SyncEntry × List (List SyncEntry)
  | _, task, [] => (task, [])
  | i, task, f :: rest =>
    match outcome f with
    | .ok =>
      let task2 := task ++ [entryOf f]
      let r := syncLoop outcome (i + 1) task2 rest
      if i % CHECKPOINT_INTERVAL = 0 then (r.1, task2 :: r.2) else r
    | _ => syncLoop outcome (i + 1) task rest

/-- Result of one run of `process_single_uuid`: the returned
`task_embeddings` list and the sequence of whole-object uploads
performed by `save_checkpoint` (loop checkpoints first, then the final
save when it happens). -/
structure SyncResult where
  final : List SyncEntry
  writes : List (List SyncEntry)
deriving DecidableEq

/-- The Drive files surviving the already-processed filter:
`[f for f in files_to_process if key(f) not in processed_file_keys]`. -/
def newFiles (existing : List SyncEntry) (drive : List DriveFile) : List DriveFile :=
  drive.filter (fun f => !((existing.map entryKey).contains (fileKey f)))

/-- Embedding of `process_single_uuid(uuid, drive_url, use_embed_v4)`.
`existing` is the loaded artifact (`load_existing_embeddings`), `drive`
the result of `list_files_in_drive_folder(drive_url)`, and `outcome`
abstracts the download / resize / embed effects for each file.  The
early return `if not files_to_process: return task_embeddings` (both
before and after the already-processed filter) performs no write; the
final save runs only `if task_embeddings != existing_embeddings`. -/
def process_single_uuid (existing : List SyncEntry) (drive : List DriveFile)
    (outcome : DriveFile → FileOutcome) : SyncResult :=
  let task := existing
  if drive.isEmpty then { final := task, writes := [] }
  else
    let todo := newFiles existing drive
    if todo.isEmpty then { final := task, writes := [] }
    else
      let r := syncLoop outcome 1 task todo
      if r.1 ≠ task then { final := r.1, writes := r.2 ++ [r.1] }
      else { final := r.1, writes := r.2 }

/-! Helper lemmas about the sync loop. -/

theorem syncLoop_final (outcome : DriveFile → FileOutcome) :
    ∀ (l : List DriveFile) (i : ℕ) (task : List SyncEntry),
      (syncLoop outcome i task l).1
        = task ++ (l.filter (fun f => outcome f == .ok)).map entryOf := by
  intro l
  induction l with
  | nil => intro i task; simp [syncLoop]
  | cons f rest ih =>
    intro i task
    rw [syncLoop]
    rcases h : outcome f with _ | _ | _ | _ <;>
      simp [h, ih, List.filter_cons]
    · split <;> simp [ih]

theorem syncLoop_writes_length (outcome : DriveFile → FileOutcome) :
    ∀ (l : List DriveFile) (i : ℕ) (task : List SyncEntry),
      (syncLoop outcome i task l).2.length
        = (l.enumFrom i).countP
            (fun p => outcome p.2 == .ok && p.1 % CHECKPOINT_INTERVAL == 0) := by
  intro l
  induction l with
  | nil => intro i task; simp [syncLoop]
  | cons f rest ih =>
    intro i task
    rw [syncLoop]
    rcases h : outcome f with _ | _ | _ | _ <;>
      simp [h, ih, List.enumFrom_cons, List.countP_cons]
    · split <;> simp_all [ih]

theorem syncLoop_final_ne_iff (outcome : DriveFile → FileOutcome)
    (l : List DriveFile) (i : ℕ) (task : List SyncEntry) :
    (syncLoop outcome i task l).1 ≠ task
      ↔ (l.filter (fun f => outcome f == .ok)) ≠ [] := by
  rw [syncLoop_final]
  constructor
  · intro h hc
    exact h (by simp [hc])
  · intro h hc
    have hlen := congrArg List.length hc
    simp only [List.length_append, List.length_map] at hlen
    exact h (List.length_eq_zero.mp (by omega))

/-! ## Claims C1, C2, C3 about the sync loop -/

/-- C1 (amended).  After a successful run of `process_single_uuid`, the
key list of the working copy (which equals the persisted artifact
whenever a write occurred, and the untouched prior artifact otherwise)
is the keys of the loaded artifact followed by the keys of the new
Drive files whose processing succeeded.  In particular every key
present before the run is still present afterwards: keys absent from
the current Drive tree (deletions) are never removed. -/
theorem sync_preserves_existing_keys (existing : List SyncEntry)
    (drive : List DriveFile) (outcome : DriveFile → FileOutcome) :
    (process_single_uuid existing drive outcome).final.map entryKey
      = existing.map entryKey
        ++ ((newFiles existing drive).filter (fun f => outcome f == .ok)).map fileKey := by
  unfold process_single_uuid
  by_cases hd : drive.isEmpty
  · have : drive = [] := List.isEmpty_iff.mp hd
    subst this
    simp [newFiles]
  · simp only [hd, if_false]
    by_cases ht : (newFiles existing drive).isEmpty
    · have : newFiles existing drive = [] := List.isEmpty_iff.mp ht
      simp [hd, this]
    · have hfin := syncLoop_final outcome (newFiles existing drive) 1 existing
      simp only [hd, ht, if_false, Bool.false_eq_true]
      split <;>
        simp [hfin, Function.comp, entryOf, entryKey, fileKey]

/-- C1 counterexample.  The claim states that after a successful run
the persisted key set equals the current Drive keys united with the
corrupt keys present before the run.  Take an artifact holding one
entry `old.jpg` (no corrupt entries) and a Drive tree holding only
`a.jpg`, with every file processed successfully: the run succeeds, yet
the resulting key set is {"/old.jpg", "/a.jpg"}, not the claimed
{"/a.jpg"} — the deleted key survives. -/
theorem sync_keys_counterexample :
    ((process_single_uuid [{ folder_path := "", filename := "old.jpg", filepath := "p-old" }]
        [{ name := "a.jpg", folder_path := "", webViewLink := "p-a" }]
        (fun _ => .ok)).final.map entryKey).toFinset
      ≠ (["/a.jpg"] : List String).toFinset := by decide

/-- C2 (amended).  When the Drive enumeration returns an empty list,
`process_single_uuid` returns immediately: no write is performed at
all and the working copy is the loaded artifact unchanged, whether or
not the artifact is empty.  (With both artifact and Drive empty this
specializes to the claim's second half: no write occurs.) -/
theorem sync_empty_drive_no_write (existing : List SyncEntry)
    (outcome : DriveFile → FileOutcome) :
    process_single_uuid existing [] outcome = { final := existing, writes := [] } := by
  simp [process_single_uuid]

/-- C2 counterexample.  The claim states that with a non-empty
artifact and an empty Drive tree the artifact is overwritten with `[]`
in exactly one write; in fact the run performs no write (the write
sequence is empty, not `[[]]`) and the artifact keeps its entry. -/
theorem sync_empty_drive_counterexample :
    (process_single_uuid [{ folder_path := "", filename := "old.jpg", filepath := "p-old" }]
        [] (fun _ => .ok)).writes ≠ [([] : List SyncEntry)]
      ∧ (process_single_uuid
          [{ folder_path := "", filename := "old.jpg", filepath := "p-old" }]
          [] (fun _ => .ok)).final ≠ [] := by decide

/-- C3 (amended).  During the loop the working copy is persisted at
exactly those 1-based attempt indices `i` that are multiples of
`CHECKPOINT_INTERVAL` and whose file succeeded end-to-end (the counter
is the attempt index, not the number of successful appends); a
per-file failure or exception persists nothing; one further write
happens after the loop iff at least one append occurred.  The total
write count of a run is therefore as below. -/
theorem sync_checkpoint_write_count (existing : List SyncEntry)
    (drive : List DriveFile) (outcome : DriveFile → FileOutcome) :
    (process_single_uuid existing drive outcome).writes.length
      = ((newFiles existing drive).enumFrom 1).countP
          (fun p => outcome p.2 == .ok && p.1 % CHECKPOINT_INTERVAL == 0)
        + (if (newFiles existing drive).filter (fun f => outcome f == .ok) = [] then 0 else 1) := by
  unfold process_single_uuid
  by_cases hd : drive.isEmpty
  · have : drive = [] := List.isEmpty_iff.mp hd
    subst this
    simp [newFiles]
  · simp only [hd, if_false]
    by_cases ht : (newFiles existing drive).isEmpty
    · have h0 : newFiles existing drive = [] := List.isEmpty_iff.mp ht
      simp [hd, h0]
    · have hw := syncLoop_writes_length outcome (newFiles existing drive) 1 existing
      have hne := syncLoop_final_ne_iff outcome (newFiles existing drive) 1 existing
      simp only [hd, ht, if_false, Bool.false_eq_true]
      by_cases hfin : (syncLoop outcome 1 existing (newFiles existing drive)).1 = existing
      · have hfil : (newFiles existing drive).filter (fun f => outcome f == .ok) = [] := by
          by_contra hc
          exact (hne.mpr hc) hfin
        simp [hfin, hw, hfil]
      · have hfil : (newFiles existing drive).filter (fun f => outcome f == .ok) ≠ [] :=
          hne.mp hfin
        simp [hfin, hw, hfil]

/-- C3 counterexample.  First conjunct: a run whose single file raises
an exception performs no write at all, refuting "on any per-file
exception the full working copy is persisted before the loop
continues".  Second conjunct: with 100 new files of which only the
first fails, only 99 successful appends occur, yet the run performs
two writes — the in-loop checkpoint fired at attempt index 100 — so
the checkpoint counter counts attempted files, not successful appends
(the claim predicts a single final write here). -/
theorem sync_checkpoint_counterexample :
    (process_single_uuid [] [{ name := "x.jpg", folder_path := "", webViewLink := "p" }]
        (fun _ => .exn)).writes = []
      ∧ (process_single_uuid []
          ((List.range 100).map
            (fun n => { name := "f" ++ toString n, folder_path := "", webViewLink := "" }))
          (fun f => if f.name = "f0" then .resizeNone else .ok)).writes.length = 2 := by
  constructor
  · decide
  · decide

/-! ## Image Normalizer: `img_meta_processor_gdrive.resize_image_if_needed`

The function decodes the input, rejects images above 100,000,000
pixels, returns the bytes unchanged at or below `MAX_PIXELS`, and
otherwise rescales by `max(0.3, sqrt(MAX_PIXELS / pixels))` and
re-encodes as JPEG starting at quality 90.  The byte-budget loop is
`while len(resized_data) > MAX_FILE_SIZE_BYTES and quality >= 60:
quality -= 10; re-encode`, so the check `quality >= 60` happens before
the decrement and the final encode can use quality 50.  JPEG encoding
itself is abstracted as the predicate `tooBig q`, true when the bytes
produced at quality `q` exceed `MAX_FILE_SIZE_BYTES`. -/

/-- `MAX_PIXELS = 2_300_000` (local constant in
`resize_image_if_needed`). -/
def MAX_PIXELS : ℕ := 2300000

/-- `MAX_FILE_SIZE_BYTES = MAX_IMAGE_SIZE_MB * 1024 * 1024` with
`MAX_IMAGE_SIZE_MB = 5`. -/
def MAX_FILE_SIZE_BYTES : ℕ := 5 * 1024 * 1024

/-- The quality-reduction while-loop, structurally recursive on a fuel
argument (the loop itself decrements the quality by 10 from 90 while
it is at least 60, so it runs at most 4 times and any fuel of at least
5 is exact). -/
def qualityLoopAux (tooBig : ℕ → Bool) : ℕ → ℕ → ℕ
  | 0, q => q
  | fuel + 1, q => if tooBig q && decide (60 ≤ q) then qualityLoopAux tooBig fuel (q - 10) else q

/-- Quality of the final JPEG encode: the loop starts from the initial
encode at quality 90. -/
def finalQuality (tooBig : ℕ → Bool) : ℕ := qualityLoopAux tooBig 10 90

/-- A decoded image: `img.size` after `Image.open` succeeded.  Decode
failures take the early `except` returns and are outside this model,
matching the claim's scope ("for every decodable image"). -/
structure DecodedImage where
  width : ℕ
  height : ℕ
deriving DecidableEq

/-- Result of `resize_image_if_needed`: `skipped` is `return None`
(typed failure, no bytes), `unchanged` is `return image_content`,
`resized scale quality` is the re-encoded JPEG produced with the given
scale factor and final quality. -/
inductive ResizeResult where
  | skipped
  | unchanged
  | resized (scale : ℝ) (quality : ℕ)

/-- Embedding of `resize_image_if_needed(image_content, filename)` for
a decodable input; `tooBig q` abstracts
`len(encode(quality=q)) > MAX_FILE_SIZE_BYTES`. -/
noncomputable def resize_image_if_needed (img : DecodedImage) (tooBig : ℕ → Bool) :
    ResizeResult :=
  let original_pixels := img.width * img.height
  if 100000000 < original_pixels then .skipped
  else if original_pixels ≤ MAX_PIXELS then .unchanged
  else
    .resized (max 0.3 (Real.sqrt ((MAX_PIXELS : ℝ) / (original_pixels : ℝ))))
      (finalQuality tooBig)

/-- Projection used to state concrete facts about the final encode
quality without comparing real-number scale factors. -/
def resultQuality : ResizeResult → ℕ
  | .resized _ q => q
  | _ => 0

theorem finalQuality_mem (tooBig : ℕ → Bool) :
    finalQuality tooBig ∈ [90, 80, 70, 60, 50] := by
  unfold finalQuality qualityLoopAux
  by_cases h90 : tooBig 90 <;> simp only [h90, Bool.true_and, Bool.false_and] <;> try simp
  unfold qualityLoopAux
  by_cases h80 : tooBig 80 <;> simp only [h80, Bool.true_and, Bool.false_and] <;> try simp
  unfold qualityLoopAux
  by_cases h70 : tooBig 70 <;> simp only [h70, Bool.true_and, Bool.false_and] <;> try simp
  unfold qualityLoopAux
  by_cases h60 : tooBig 60 <;> simp only [h60, Bool.true_and, Bool.false_and] <;> try simp
  unfold qualityLoopAux
  simp

theorem finalQuality_stops (tooBig : ℕ → Bool) (h : tooBig (finalQuality tooBig) = true) :
    finalQuality tooBig = 50 := by
  revert h
  unfold finalQuality qualityLoopAux
  by_cases h90 : tooBig 90 <;> simp only [h90, Bool.true_and, Bool.false_and] <;> try simp_all
  unfold qualityLoopAux
  by_cases h80 : tooBig 80 <;> simp only [h80, Bool.true_and, Bool.false_and] <;> try simp_all
  unfold qualityLoopAux
  by_cases h70 : tooBig 70 <;> simp only [h70, Bool.true_and, Bool.false_and] <;> try simp_all
  unfold qualityLoopAux
  by_cases h60 : tooBig 60 <;> simp only [h60, Bool.true_and, Bool.false_and] <;> try simp_all
  unfold qualityLoopAux
  simp

/-- C5 (amended).  For every decodable image: rejection (`None`)
happens exactly when the pixel count exceeds 100,000,000; the bytes
come back unchanged exactly when the pixel count is at most
`MAX_PIXELS` (so exactly `MAX_PIXELS` is not resized and
`MAX_PIXELS + 1` is); otherwise the image is rescaled by
`max(0.3, sqrt(MAX_PIXELS / pixels))` and re-encoded as JPEG at
quality 90, decrementing by 10 while the encoded length exceeds 5 MiB
and the current quality is still at least 60 — so the final encode
quality lies in {90, 80, 70, 60, 50} and a file that still exceeds
5 MiB ends at quality 50, not 60. -/
theorem resize_image_if_needed_spec (w h : ℕ) (tooBig : ℕ → Bool) :
    (resize_image_if_needed ⟨w, h⟩ tooBig = .skipped ↔ 100000000 < w * h)
    ∧ (resize_image_if_needed ⟨w, h⟩ tooBig = .unchanged ↔ w * h ≤ MAX_PIXELS)
    ∧ (MAX_PIXELS < w * h → w * h ≤ 100000000 →
        resize_image_if_needed ⟨w, h⟩ tooBig
          = .resized (max 0.3 (Real.sqrt ((MAX_PIXELS : ℝ) / ((w * h : ℕ) : ℝ))))
              (finalQuality tooBig))
    ∧ finalQuality tooBig ∈ [90, 80, 70, 60, 50]
    ∧ (tooBig (finalQuality tooBig) = true → finalQuality tooBig = 50) := by
  have hmp : MAX_PIXELS ≤ 100000000 := by norm_num [MAX_PIXELS]
  refine ⟨?_, ?_, ?_, finalQuality_mem tooBig, finalQuality_stops tooBig⟩
  · unfold resize_image_if_needed
    by_cases hc : 100000000 < w * h
    · simp [hc]
    · by_cases hc2 : w * h ≤ MAX_PIXELS <;> simp [hc, hc2]
  · unfold resize_image_if_needed
    by_cases hc : 100000000 < w * h
    · simp only [hc]
      constructor
      · intro he; exact absurd he (by simp)
      · intro he; omega
    · by_cases hc2 : w * h ≤ MAX_PIXELS <;> simp [hc, hc2]
  · intro h1 h2
    have hc : ¬ 100000000 < w * h := by omega
    have hc2 : ¬ w * h ≤ MAX_PIXELS := by omega
    unfold resize_image_if_needed
    simp [hc, hc2]

/-- C5 witness: a 5,000,000-pixel image (above `MAX_PIXELS`, below the
100 M ceiling) whose first encode already fits the byte budget is
resized with the stated scale factor at quality 90. -/
theorem resize_image_if_needed_spec_witness :
    resize_image_if_needed ⟨5000, 1000⟩ (fun _ => false)
      = .resized (max 0.3 (Real.sqrt ((MAX_PIXELS : ℝ) / ((5000 * 1000 : ℕ) : ℝ))))
          (finalQuality (fun _ => false))
    ∧ finalQuality (fun _ => false) = 90 :=
  ⟨(resize_image_if_needed_spec 5000 1000 (fun _ => false)).2.2.1
      (by norm_num [MAX_PIXELS]) (by norm_num),
   by decide⟩

/-- C5 counterexample.  The claim says the quality decrements "down to
a minimum of 60".  For a 20,000,000-pixel image whose encodes always
exceed the byte budget, the final encode happens at quality 50: the
while-loop tests `quality >= 60` before decrementing, so it decrements
once more from 60. -/
theorem resize_quality_floor_counterexample :
    resultQuality (resize_image_if_needed ⟨5000, 4000⟩ (fun _ => true)) = 50
    ∧ resultQuality (resize_image_if_needed ⟨5000, 4000⟩ (fun _ => true)) < 60 := by
  constructor <;> decide

/-! ## Embedding fusion: `embedding_providers.py` and
`img_meta_processor_gdrive.get_multimodal_embedding`

Both providers fuse the text and image vectors of one item as
`w·t + (1−w)·i` after `_align_dimensions` truncation, with
`w = clamp(dot/(‖t‖·‖i‖), 0, 1)` and `w = 0.5` when either norm is
zero.  The Sync Engine's own `get_multimodal_embedding` computes the
same weighted sum but performs no truncation — `np.dot` raises
`ValueError` on mismatched 1-D shapes and the surrounding `except`
returns `None` — and has no zero-norm special case (at zero norms the
Python quotient is float nan, which is outside this real-number model,
so the theorems below assume a nonzero norm product on that path).
Vector arithmetic is modelled over ℝ; float32 rounding is not
modelled. -/

/-- `np.dot` on two 1-D arrays of equal length (Lean's `zipWith`
silently truncates, but every use below either aligns lengths first or
guards on them). -/
noncomputable def dotList (v w : List ℝ) : ℝ := (List.zipWith (· * ·) v w).sum

/-- `np.linalg.norm` of a 1-D array. -/
noncomputable def normList (v : List ℝ) : ℝ := Real.sqrt (dotList v v)

/-- `_align_dimensions(image_vec, text_vec)` from
`embedding_providers.py`: identical shapes pass through, otherwise
both vectors are truncated to the smaller dimension. -/
def align_dimensions (image_vec text_vec : List ℝ) : List ℝ × List ℝ :=
  if image_vec.length = text_vec.length then (image_vec, text_vec)
  else (image_vec.take (min image_vec.length text_vec.length),
        text_vec.take (min image_vec.length text_vec.length))

/-- The post-alignment fusion shared verbatim by
`CohereEmbeddingProvider.embed_multimodal` and
`VertexEmbeddingProvider.embed_multimodal`: cosine weight clamped to
[0, 1], 0.5 on a zero norm, then the weighted sum. -/
noncomputable def fuseWeighted (text_vec image_vec : List ℝ) : List ℝ :=
  let dot_product := dotList text_vec image_vec
  let norm_text := normList text_vec
  let norm_image := normList image_vec
  let weight := if norm_text = 0 ∨ norm_image = 0 then (0.5 : ℝ)
    else max 0 (min 1 (dot_product / (norm_text * norm_image)))
  List.zipWith (fun t i => weight * t + (1 - weight) * i) text_vec image_vec

/-- Fusion step of `CohereEmbeddingProvider.embed_multimodal`, from the
point where `text_vec` and `image_vec` are available. -/
noncomputable def cohere_embed_multimodal_fuse (text_vec image_vec : List ℝ) : List ℝ :=
  let p := align_dimensions image_vec text_vec
  fuseWeighted p.2 p.1

/-- Fusion step of `VertexEmbeddingProvider.embed_multimodal` (its body
is character-for-character the same as the Cohere variant). -/
noncomputable def vertex_embed_multimodal_fuse (text_vec image_vec : List ℝ) : List ℝ :=
  let p := align_dimensions image_vec text_vec
  fuseWeighted p.2 p.1

/-- Fusion step of the Sync Engine's `get_multimodal_embedding`: no
alignment (`np.dot` raises on mismatched shapes and the `except`
handler returns `None`) and no zero-norm test. -/
noncomputable def get_multimodal_embedding_fuse (text_vec image_vec : List ℝ) :
    Option (List ℝ) :=
  if text_vec.length = image_vec.length then
    let w := max 0 (min 1 (dotList text_vec image_vec / (normList text_vec * normList image_vec)))
    some (List.zipWith (fun t i => w * t + (1 - w) * i) text_vec image_vec)
  else none

/-- The fusion formula exactly as the specification words it, for
comparison with the code paths: truncate to the common dimension,
weight by the clamped cosine (0.5 on a zero norm), return the weighted
sum. -/
noncomputable def fusionSpec (t i : List ℝ) : List ℝ :=
  let t2 := t.take (min t.length i.length)
  let i2 := i.take (min t.length i.length)
  let w := if normList t2 = 0 ∨ normList i2 = 0 then (0.5 : ℝ)
    else max 0 (min 1 (dotList t2 i2 / (normList t2 * normList i2)))
  List.zipWith (fun a b => w * a + (1 - w) * b) t2 i2

theorem align_dimensions_eq (t i : List ℝ) :
    align_dimensions i t = (i.take (min t.length i.length), t.take (min t.length i.length)) := by
  unfold align_dimensions
  by_cases h : i.length = t.length
  · rw [if_pos h, h, Nat.min_self, List.take_length, ← h, List.take_length]
  · rw [if_neg h, Nat.min_comm]

/-- C4 (amended).  The fusion formula of the claim holds verbatim on
both provider paths (`CohereEmbeddingProvider.embed_multimodal`,
`VertexEmbeddingProvider.embed_multimodal`).  On the Sync Engine's own
path (`get_multimodal_embedding`) the formula holds only for vectors of
equal dimension with nonzero norms: no truncation is applied —
mismatched dimensions abort the fusion with no vector at all — and
there is no zero-norm special case. -/
theorem embed_multimodal_fusion_paths (t i : List ℝ) :
    cohere_embed_multimodal_fuse t i = fusionSpec t i
    ∧ vertex_embed_multimodal_fuse t i = fusionSpec t i
    ∧ (t.length = i.length → normList t * normList i ≠ 0 →
        get_multimodal_embedding_fuse t i = some (fusionSpec t i))
    ∧ (t.length ≠ i.length → get_multimodal_embedding_fuse t i = none) := by
  have hco : cohere_embed_multimodal_fuse t i = fusionSpec t i := by
    unfold cohere_embed_multimodal_fuse fusionSpec fuseWeighted
    rw [align_dimensions_eq]
  refine ⟨hco, hco, ?_, ?_⟩
  · intro hlen hnz
    have ht2 : t.take (min t.length i.length) = t := by
      rw [hlen, Nat.min_self, ← hlen, List.take_length]
    have hi2 : i.take (min t.length i.length) = i := by
      rw [hlen, Nat.min_self, List.take_length]
    have hguard : ¬ (normList t = 0 ∨ normList i = 0) := by
      rintro (h0 | h0) <;> apply hnz <;> rw [h0]
      · exact zero_mul _
      · exact mul_zero _
    simp only [get_multimodal_embedding_fuse, fusionSpec, ht2, hi2, if_pos hlen,
      if_neg hguard]
  · intro hlen
    unfold get_multimodal_embedding_fuse
    rw [if_neg hlen]

/-- C4 witness: on equal-dimension unit vectors the Sync Engine path
agrees with the specification formula, and on mismatched dimensions it
yields no vector. -/
theorem embed_multimodal_fusion_paths_witness :
    get_multimodal_embedding_fuse [(1 : ℝ)] [(1 : ℝ)] = some (fusionSpec [(1 : ℝ)] [(1 : ℝ)])
    ∧ get_multimodal_embedding_fuse [(1 : ℝ), 0] [(1 : ℝ)] = none :=
  ⟨(embed_multimodal_fusion_paths [(1 : ℝ)] [(1 : ℝ)]).2.2.1 rfl
      (by simp [normList, dotList, Real.sqrt_one]),
   (embed_multimodal_fusion_paths [(1 : ℝ), 0] [(1 : ℝ)]).2.2.2 (by simp)⟩

/-- C4 counterexample.  The claim asserts the weighted-fusion formula
(with truncation to the common dimension) "on every code path that
fuses the two modalities, including the Sync Engine's embedding step".
For t = [1, 0] and i = [1] the claimed formula yields the vector [1],
but the Sync Engine's `get_multimodal_embedding` produces no vector at
all (`np.dot` raises and the handler returns `None`). -/
theorem fusion_sync_engine_counterexample :
    get_multimodal_embedding_fuse [(1 : ℝ), 0] [(1 : ℝ)] = none
    ∧ fusionSpec [(1 : ℝ), 0] [(1 : ℝ)] = [(1 : ℝ)]
    ∧ get_multimodal_embedding_fuse [(1 : ℝ), 0] [(1 : ℝ)]
        ≠ some (fusionSpec [(1 : ℝ), 0] [(1 : ℝ)]) := by
  have hnone : get_multimodal_embedding_fuse [(1 : ℝ), 0] [(1 : ℝ)] = none := by
    unfold get_multimodal_embedding_fuse
    simp
  have hspec : fusionSpec [(1 : ℝ), 0] [(1 : ℝ)] = [(1 : ℝ)] := by
    unfold fusionSpec
    norm_num [dotList, normList, Real.sqrt_one]
  exact ⟨hnone, hspec, by rw [hnone]; exact fun h => Option.noConfusion h⟩

/-! ## Drive enumeration: `drive_scanner.list_files_in_drive_folder`

The scanner breadth-first enumerates subfolders and then lists the
image files of each folder.  Every listing is one single
`files().list(...).execute()` call: no `pageToken` is ever passed and
the `nextPageToken` of the response is never read, so only the first
page of each listing is consumed.  The Drive API is modelled as a pair
of paged listing functions. -/

/-- One page of a `files().list` response restricted to subfolders. -/
structure FolderPage where
  folders : List String
  nextPageToken : Option String
deriving DecidableEq

/-- One page of a `files().list` response restricted to image files. -/
structure ImagePage where
  files : List String
  nextPageToken : Option String
deriving DecidableEq

/-- The Drive API as seen by the scanner: both listings take a folder
id and an optional page token and return one page. -/
structure DriveApi where
  listSubfolders : String → Option String → FolderPage
  listImages : String → Option String → ImagePage

/-- The scanner's subfolder BFS (`while folders_to_check:`): each
iteration pops one folder and issues a single `files().list` call with
no page token, appending the returned subfolders to the accumulator
and the queue.  `fuel` bounds the iteration count (the Python loop
runs until the queue empties; every call site below supplies ample
fuel for its finite folder graph). -/
def collectFolders (api : DriveApi) : ℕ → List String → List String → List String
  | 0, acc, _ => acc
  | _, acc, [] => acc
  | fuel + 1, acc, f :: queue =>
    let page := api.listSubfolders f none
    collectFolders api fuel (acc ++ page.folders) (queue ++ page.folders)

/-- Embedding of `drive_scanner.list_files_in_drive_folder`: enumerate
all folders starting from the root, then issue one single-page image
listing per folder. -/
def list_files_in_drive_folder (api : DriveApi) (fuel : ℕ) (root : String) : List String :=
  let all_folders := collectFolders api fuel [root] [root]
  all_folders.flatMap (fun fid => (api.listImages fid none).files)

/-- Modelled from the spec: "all calls must iterate `nextPageToken` to
exhaustion" — the exhaustive image listing of one folder, following
the token chain (with fuel for the page chain length). -/
def allImagePages (api : DriveApi) (fid : String) : ℕ → Option String → List String
  | 0, _ => []
  | fuel + 1, tok =>
    let page := api.listImages fid tok
    match page.nextPageToken with
    | none => page.files
    | some t => page.files ++ allImagePages api fid fuel (some t)

/-- A Drive tree with a single folder whose image listing spans two
pages: the first page holds `a.jpg` and hands out a continuation
token, the second holds `b.jpg`. -/
def pagedApi : DriveApi :=
  { listSubfolders := fun _ _ => { folders := [], nextPageToken := none },
    listImages := fun _ tok =>
      match tok with
      | none => { files := ["a.jpg"], nextPageToken := some "page2" }
      | some _ => { files := ["b.jpg"], nextPageToken := none } }

/-- C6 (code bug).  The claim — and the scanner's own docstring, which
promises all image files of the folder tree — require every paginated
list call to be iterated through `nextPageToken` to exhaustion.  The
code issues exactly one unpaged `files().list` call per listing, so on
a folder whose listing spans two pages the file `b.jpg` of the second
page is silently dropped, while the exhaustive enumeration the claim
describes returns both files. -/
theorem drive_scanner_single_page_bug :
    list_files_in_drive_folder pagedApi 5 "root" = ["a.jpg"]
    ∧ allImagePages pagedApi "root" 5 none = ["a.jpg", "b.jpg"]
    ∧ "b.jpg" ∉ list_files_in_drive_folder pagedApi 5 "root" := by
  refine ⟨by decide, by decide, by decide⟩

/-! ## Notification Router cooldown:
`drive_watch.DriveNotificationProcessor.handle_notification`

For each matched company the handler reads
`last_job_trigger_ts` from the stored company state, skips the
dispatch when `self.cooldown_seconds and last_trigger_ts` are both
truthy and `now - last_trigger_ts < cooldown_seconds`, and otherwise
dispatches the vectorization job, sets `last_job_trigger_ts = now` and
persists the company state.  One tenant's state is threaded through a
sequence of handled notifications, each carrying whether the tenant
matched a relevant change and the `time.time()` value observed.  Times
are modelled as rationals; `time.time()` is strictly positive, which
the claim theorem assumes (Python treats a stored timestamp of exactly
0 as falsy and would bypass the cooldown). -/

/-- One tenant's cooldown decision for one notification: returns
whether a job was dispatched and the new stored
`last_job_trigger_ts`. -/
def cooldownStep (cooldown_seconds : ℚ) (last_job_trigger_ts : Option ℚ)
    (matched : Bool) (now : ℚ) : Bool × Option ℚ :=
  if !matched then (false, last_job_trigger_ts)
  else
    match last_job_trigger_ts with
    | some ts =>
      if cooldown_seconds ≠ 0 ∧ ts ≠ 0 ∧ now - ts < cooldown_seconds then (false, some ts)
      else (true, some now)
    | none => (true, some now)

/-- The dispatch times produced by handling a sequence of
notifications for one tenant; each event is `(matched, now)`. -/
def runNotifications (cooldown_seconds : ℚ) :
    Option ℚ → List (Bool × ℚ) → List ℚ
  | _, [] => []
  | last, (matched, now) :: rest =>
    let step := cooldownStep cooldown_seconds last matched now
    if step.1 then now :: runNotifications cooldown_seconds step.2 rest
    else runNotifications cooldown_seconds step.2 rest

theorem runNotifications_gap (C : ℚ) (hC : 0 < C) :
    ∀ (events : List (Bool × ℚ)) (last : Option ℚ),
      (∀ p ∈ events, 0 < p.2) →
      (runNotifications C last events).Pairwise (fun a b => a + C ≤ b)
      ∧ (∀ t₀, last = some t₀ → 0 < t₀ →
          ∀ d ∈ runNotifications C last events, t₀ + C ≤ d) := by
  intro events
  induction events with
  | nil =>
    intro last _
    exact ⟨List.Pairwise.nil, fun _ _ _ _ hd => absurd hd (by simp [runNotifications])⟩
  | cons e rest ih =>
    rcases e with ⟨matched, now⟩
    intro last hpos
    have hnow : 0 < now := hpos (matched, now) (List.mem_cons_self _ _)
    have hrest : ∀ p ∈ rest, 0 < p.2 := fun p hp => hpos p (List.mem_cons_of_mem _ hp)
    rcases matched with _ | _
    · -- not matched: no dispatch, state unchanged
      have hstep : cooldownStep C last false now = (false, last) := by
        simp [cooldownStep]
      rw [runNotifications, hstep]
      simpa using ih last hrest
    · rcases last with _ | ts
      · -- no stored timestamp: dispatch
        have hstep : cooldownStep C none true now = (true, some now) := by
          simp [cooldownStep]
        rw [runNotifications, hstep]
        simp only [if_pos]
        have hih := ih (some now) hrest
        refine ⟨List.Pairwise.cons (fun d hd => hih.2 now rfl hnow d hd) hih.1, ?_⟩
        intro t₀ ht₀ _ _ hd
        exact absurd ht₀ (by simp)
      · by_cases hcool : C ≠ 0 ∧ ts ≠ 0 ∧ now - ts < C
        · -- cooldown active: skip, keep the stored timestamp
          have hstep : cooldownStep C (some ts) true now = (false, some ts) := by
            simp only [cooldownStep, Bool.not_true, Bool.false_eq_true, if_false]
            rw [if_pos hcool]
          rw [runNotifications, hstep]
          simpa using ih (some ts) hrest
        · -- dispatch: set last_job_trigger_ts = now
          have hstep : cooldownStep C (some ts) true now = (true, some now) := by
            simp only [cooldownStep, Bool.not_true, Bool.false_eq_true, if_false]
            rw [if_neg hcool]
          rw [runNotifications, hstep]
          simp only [if_pos]
          have hih := ih (some now) hrest
          refine ⟨List.Pairwise.cons (fun d hd => hih.2 now rfl hnow d hd) hih.1, ?_⟩
          intro t₀ ht₀ hpos₀ d hd
          have hts : ts = t₀ := by injection ht₀
          subst hts
          have hgap : ts + C ≤ now := by
            have hnl : ¬ now - ts < C := fun hlt =>
              hcool ⟨ne_of_gt hC, ne_of_gt hpos₀, hlt⟩
            linarith [not_lt.mp hnl]
          rcases List.mem_cons.mp hd with hd | hd
          · exact hd ▸ hgap
          · have := hih.2 now rfl hnow d hd
            linarith

/-- C7.  For every cooldown C > 0 and every sequence of handled
notifications for one tenant (with the strictly positive `time.time()`
values the clock produces), any two dispatched jobs are at least C
seconds apart; equivalently, every half-open C-second window contains
at most one dispatch.  Matched tenants inside the cooldown window are
skipped, and each dispatch stores the current time, as encoded in
`cooldownStep`. -/
theorem notification_cooldown_window (C : ℚ) (events : List (Bool × ℚ))
    (hC : 0 < C) (hpos : ∀ p ∈ events, 0 < p.2) :
    (runNotifications C none events).Pairwise (fun a b => a + C ≤ b)
    ∧ ∀ w : ℚ, ((runNotifications C none events).filter
        (fun t => decide (w ≤ t) && decide (t < w + C))).length ≤ 1 := by
  have hp := (runNotifications_gap C hC events none hpos).1
  refine ⟨hp, ?_⟩
  intro w
  have hps : ((runNotifications C none events).filter
      (fun t => decide (w ≤ t) && decide (t < w + C))).Pairwise (fun a b => a + C ≤ b) :=
    hp.sublist (List.filter_sublist _)
  rcases hfl : (runNotifications C none events).filter
      (fun t => decide (w ≤ t) && decide (t < w + C)) with _ | ⟨a, _ | ⟨b, l⟩⟩
  · simp
  · simp
  · exfalso
    rw [hfl] at hps
    have hab : a + C ≤ b := (List.pairwise_cons.mp hps).1 b (List.mem_cons_self _ _)
    have ha : a ∈ (runNotifications C none events).filter
        (fun t => decide (w ≤ t) && decide (t < w + C)) := by
      rw [hfl]; exact List.mem_cons_self _ _
    have hb : b ∈ (runNotifications C none events).filter
        (fun t => decide (w ≤ t) && decide (t < w + C)) := by
      rw [hfl]; exact List.mem_cons_of_mem _ (List.mem_cons_self _ _)
    have ha2 := (List.mem_filter.mp ha).2
    have hb2 := (List.mem_filter.mp hb).2
    simp only [Bool.and_eq_true, decide_eq_true_eq] at ha2 hb2
    linarith [ha2.1, hb2.2]

/-- C7 witness.  Cooldown 60 s; three matched notifications at times
10, 30 and 100: the one at 30 is inside the cooldown window of the
dispatch at 10, so the dispatches are [10, 100], 60 s apart, and the
window starting at 0 contains one of them. -/
theorem notification_cooldown_window_witness :
    (runNotifications 60 none [(true, 10), (true, 30), (true, 100)]).Pairwise
      (fun a b => a + 60 ≤ b)
    ∧ ((runNotifications 60 none [(true, 10), (true, 30), (true, 100)]).filter
        (fun t => decide ((0 : ℚ) ≤ t) && decide (t < 0 + 60))).length ≤ 1 :=
  ⟨(notification_cooldown_window 60 [(true, 10), (true, 30), (true, 100)]
      (by norm_num) (by decide)).1,
   (notification_cooldown_window 60 [(true, 10), (true, 30), (true, 100)]
      (by norm_num) (by decide)).2 0⟩

/-! ## Search Index: `search.ImageSearcher` and
`main.SearchService.search_shuffle`

`ImageSearcher._load_data` drops entries that are marked corrupt or
lack an embedding.  `search_images(query_embedding, top_k, exclude)`
filters out excluded filenames before computing similarities, argsorts
the similarities descending, keeps the top `min(top_k, n)` candidates,
draws all of them (`np.random.choice` with `num_results = min(top_k,
pool_len) = pool_len` distinct indices), and sorts the result by
similarity descending — so it returns the top-`top_k` candidates in
descending order, with ties and the sampling order nondeterministic.
`SearchService.search_shuffle` requests a pool of size
`max(top_k*3, 20)` (or `max(top_n, top_k)` when `top_n` is given),
then either returns the whole pool (when it has at most `top_k`
entries) or a uniformly sampled `top_k`-subset taken in ascending
index order, i.e. a sublist of the pool.  Cosine scores are abstracted
as an arbitrary rational-valued function of the stored embedding,
which the claim's counting / membership / ordering properties do not
depend on; the nondeterminism of `argsort` ties and of the random
sampling is captured relationally. -/

/-- One artifact entry as read by `ImageSearcher._load_data`:
`is_corrupt` truthiness and `embedding` truthiness (absent or empty
embedding) decide whether the entry is retained. -/
structure ArtifactEntry where
  filename : String
  filepath : String
  is_corrupt : Bool
  embedding : List ℚ
deriving DecidableEq

/-- Entries retained by `_load_data`: not corrupt and with a non-empty
embedding. -/
def loadValidEntries (raw : List ArtifactEntry) : List ArtifactEntry :=
  raw.filter (fun e => !e.is_corrupt && !e.embedding.isEmpty)

/-- The exclusion filter applied before similarity computation:
`valid_indices` keeps entries whose filename is not excluded. -/
def validCandidates (data : List ArtifactEntry) (exclude_files : List String) :
    List ArtifactEntry :=
  data.filter (fun e => !(exclude_files.contains e.filename))

/-- `pool_size = max(top_k * 3, 20) if top_n is None else
max(top_n, top_k)` from `SearchService.search_shuffle`. -/
def pool_size (top_k : ℕ) (top_n : Option ℕ) : ℕ :=
  match top_n with
  | none => max (top_k * 3) 20
  | some n => max n top_k

/-- Relational embedding of `ImageSearcher.search_images(qe, top_k,
exclude_files)` returning `res`: some descending arrangement `sorted`
of the non-excluded candidates exists (`np.argsort` reversed; ties
arbitrary) such that `res` is a rearrangement of its first `top_k`
entries, itself in descending similarity order (the random draw takes
all of the pool and the result is then sorted).  `sim` maps a stored
embedding to its cosine score against the query embedding. -/
def SearchImagesExec (sim : List ℚ → ℚ) (data : List ArtifactEntry)
    (exclude_files : List String) (top_k : ℕ) (res : List ArtifactEntry) : Prop :=
  ∃ sorted : List ArtifactEntry,
    sorted ~ validCandidates data exclude_files
    ∧ sorted.Sorted (fun a b => sim b.embedding ≤ sim a.embedding)
    ∧ res ~ sorted.take top_k
    ∧ res.Sorted (fun a b => sim b.embedding ≤ sim a.embedding)

/-- Relational embedding of `SearchService.search_shuffle` returning
`res` over the artifact `raw`: the searcher loads the valid entries,
`search_images` produces the pool with `top_k = pool_size`, and the
result is the whole pool when it is small, otherwise a random
`top_k`-subset in ascending pool order (`random.sample` then
`indices.sort()`), i.e. a sublist. -/
def SearchShuffleExec (sim : List ℚ → ℚ) (raw : List ArtifactEntry)
    (exclude_files : List String) (top_k : ℕ) (top_n : Option ℕ)
    (res : List ArtifactEntry) : Prop :=
  ∃ pool : List ArtifactEntry,
    SearchImagesExec sim (loadValidEntries raw) exclude_files (pool_size top_k top_n) pool
    ∧ ((pool.length ≤ top_k ∧ res = pool)
       ∨ (top_k < pool.length ∧ res <+ pool ∧ res.length = top_k))

theorem pool_size_ge (top_k : ℕ) (top_n : Option ℕ) : top_k ≤ pool_size top_k top_n := by
  rcases top_n with _ | n
  · exact le_trans (by omega) (Nat.le_max_left (top_k * 3) 20)
  · exact Nat.le_max_right n top_k

/-- C8.  Every possible result of `search_shuffle(q, top_k, top_n,
exclude)` has exactly `min(top_k, |valid entries minus exclusions|)`
entries, is sorted by similarity descending, and consists solely of
members of the `pool_size`-sized top-ranked candidate pool for the
same query and exclusions (the pool being
`max(top_k*3, 20)` when `top_n` is unspecified and `max(top_n, top_k)`
otherwise). -/
theorem search_shuffle_pool_spec (sim : List ℚ → ℚ) (raw : List ArtifactEntry)
    (exclude_files : List String) (top_k : ℕ) (top_n : Option ℕ)
    (res : List ArtifactEntry)
    (hexec : SearchShuffleExec sim raw exclude_files top_k top_n res) :
    res.length = min top_k (validCandidates (loadValidEntries raw) exclude_files).length
    ∧ res.Sorted (fun a b => sim b.embedding ≤ sim a.embedding)
    ∧ ∃ pool : List ArtifactEntry,
        SearchImagesExec sim (loadValidEntries raw) exclude_files
          (pool_size top_k top_n) pool
        ∧ ∀ e ∈ res, e ∈ pool := by
  obtain ⟨pool, hpool, hcase⟩ := hexec
  obtain ⟨sorted, hperm, hsorted, hpoolperm, hpoolsorted⟩ := hpool
  have hV : sorted.length = (validCandidates (loadValidEntries raw) exclude_files).length :=
    hperm.length_eq
  have hpl : pool.length
      = min (pool_size top_k top_n) (validCandidates (loadValidEntries raw) exclude_files).length := by
    rw [hpoolperm.length_eq, List.length_take, hV]
  have hk := pool_size_ge top_k top_n
  rcases hcase with ⟨hle, hres⟩ | ⟨hlt, hsub, hlen⟩
  · refine ⟨?_, ?_, pool, ⟨sorted, hperm, hsorted, hpoolperm, hpoolsorted⟩, ?_⟩
    · rw [hres]; omega
    · rw [hres]; exact hpoolsorted
    · intro e he; rw [hres] at he; exact he
  · refine ⟨by omega, hpoolsorted.sublist hsub, pool,
      ⟨sorted, hperm, hsorted, hpoolperm, hpoolsorted⟩, fun e he => hsub.subset he⟩

/-- C8 witness: a two-entry artifact searched with `top_k = 1` and no
`top_n`; the execution returns the single best entry, of length
`min 1 2 = 1`, sorted, and drawn from the candidate pool. -/
theorem search_shuffle_pool_spec_witness :
    ([(⟨"a", "pa", false, [2]⟩ : ArtifactEntry)]).length
        = min 1 (validCandidates (loadValidEntries
            [⟨"a", "pa", false, [2]⟩, ⟨"b", "pb", false, [1]⟩]) []).length
    ∧ ([(⟨"a", "pa", false, [2]⟩ : ArtifactEntry)]).Sorted
        (fun a b => (fun l : List ℚ => l.headI) b.embedding
          ≤ (fun l : List ℚ => l.headI) a.embedding)
    ∧ ∃ pool : List ArtifactEntry,
        SearchImagesExec (fun l : List ℚ => l.headI)
          (loadValidEntries [⟨"a", "pa", false, [2]⟩, ⟨"b", "pb", false, [1]⟩]) []
          (pool_size 1 none) pool
        ∧ ∀ e ∈ [(⟨"a", "pa", false, [2]⟩ : ArtifactEntry)], e ∈ pool :=
  search_shuffle_pool_spec (fun l : List ℚ => l.headI)
    [⟨"a", "pa", false, [2]⟩, ⟨"b", "pb", false, [1]⟩] [] 1 none
    [⟨"a", "pa", false, [2]⟩]
    ⟨[⟨"a", "pa", false, [2]⟩, ⟨"b", "pb", false, [1]⟩],
      ⟨[⟨"a", "pa", false, [2]⟩, ⟨"b", "pb", false, [1]⟩],
        by decide, by decide, by decide, by decide⟩,
      Or.inr ⟨by decide, by decide, by decide⟩⟩

/-! ## Query embedding call: `main.SearchService._embed_query` and
`embedding_providers.get_embedding_provider`

`_embed_query` calls `get_embedding_provider(provider_name=...)`, but
`get_embedding_provider(force_reload: bool = False)` accepts no
keyword named `provider_name`, so Python raises `TypeError` at the
call.  The HTTP search handlers re-raise `HTTPException` and turn any
other exception into a 500 response.  Python keyword binding is
modelled by name lookup in the callee's parameter list, and the
handler's dispatch on `trigger` / `q` / artifact availability is
embedded directly from `main.search_images_api`. -/

/-- Parameter names of `get_embedding_provider`. -/
def get_embedding_provider_params : List String := ["force_reload"]

/-- Keyword arguments passed by `SearchService._embed_query`. -/
def embed_query_provider_kwargs : List String := ["provider_name"]

/-- A Python keyword call binds iff every keyword argument names a
parameter of the callee (no `**kwargs` is declared here). -/
def pyKeywordBindOk (params kwargs : List String) : Bool :=
  kwargs.all (fun kw => params.contains kw)

/-- HTTP status category produced by the `/search` handlers. -/
inductive SearchHttpResult where
  | ok
  | badRequest
  | notFound
  | serverError
deriving DecidableEq

/-- Embedding of the `GET /search` handler `main.search_images_api`
(the POST body handler dispatches identically): alias the legacy
trigger, require `q` on standard and shuffle, 404 on a missing
artifact, then reach `_embed_query`, whose failing keyword binding
surfaces as the generic 500 branch; the random trigger never embeds a
query. -/
def search_images_api (trigger : String) (hasQuery : Bool) (artifactExists : Bool) :
    SearchHttpResult :=
  let normalized := if trigger = "類似画像検索" then "シャッフル" else trigger
  if normalized = "スタンダード" then
    if !hasQuery then .badRequest
    else if !artifactExists then .notFound
    else if pyKeywordBindOk get_embedding_provider_params embed_query_provider_kwargs then .ok
    else .serverError
  else if normalized = "シャッフル" then
    if !hasQuery then .badRequest
    else if !artifactExists then .notFound
    else if pyKeywordBindOk get_embedding_provider_params embed_query_provider_kwargs then .ok
    else .serverError
  else if normalized = "ランダム" then
    if !artifactExists then .notFound else .ok
  else .badRequest

/-- C9.  The keyword `provider_name` passed by
`SearchService._embed_query` binds to no parameter of
`get_embedding_provider` (whose only parameter is `force_reload`), so
the call raises `TypeError`; consequently every ranked or shuffle
search request that has a query and an existing artifact — i.e. one
that reaches the query-embedding step — is answered with a 500
response instead of results. -/
theorem search_embed_query_type_error :
    pyKeywordBindOk get_embedding_provider_params embed_query_provider_kwargs = false
    ∧ ∀ (trigger : String) (artifactExists : Bool), artifactExists = true →
        (trigger = "スタンダード" ∨ trigger = "シャッフル" ∨ trigger = "類似画像検索") →
        search_images_api trigger true artifactExists = .serverError := by
  refine ⟨by decide, ?_⟩
  intro trigger ae hae htr
  subst hae
  rcases htr with h | h | h <;> subst h <;> decide

/-- C9 witness: a standard search with a query against an existing
artifact is answered 500, and the keyword binding is indeed
invalid. -/
theorem search_embed_query_type_error_witness :
    pyKeywordBindOk get_embedding_provider_params embed_query_provider_kwargs = false
    ∧ search_images_api "スタンダード" true true = .serverError :=
  ⟨search_embed_query_type_error.1,
   search_embed_query_type_error.2 "スタンダード" true rfl (Or.inl rfl)⟩

/-! ## Module imports: `drive_watch` and `drive_scanner`

`drive_watch.py` line 17 executes
`from drive_scanner import extract_folder_id`, but `drive_scanner.py`
defines only the module-level names below — the folder-id helper is
the private `_extract_folder_id` — so importing `drive_watch` raises
`ImportError` when the module is loaded.  `main.py` executes
`from drive_watch import DriveWatchManager, DriveNotificationProcessor`
at line 23, so loading the main application module fails in turn,
taking down the whole HTTP surface including `/drive/watch` and
`/drive/notifications`. -/

/-- Module-level names defined by `drive_scanner.py`. -/
def drive_scanner_module_names : List String :=
  ["SCOPES", "_get_google_credentials", "_extract_folder_id", "list_files_in_drive_folder"]

/-- Names requested by `drive_watch.py` from `drive_scanner`. -/
def drive_watch_from_drive_scanner : List String := ["extract_folder_id"]

/-- A `from M import a, b, ...` statement succeeds iff every requested
name is a module-level name of M. -/
def fromImportOk (module_names requested : List String) : Bool :=
  requested.all (fun n => module_names.contains n)

/-- `drive_watch` loads only if its import from `drive_scanner`
resolves. -/
def drive_watch_loads : Bool :=
  fromImportOk drive_scanner_module_names drive_watch_from_drive_scanner

/-- `main` executes `from drive_watch import ...`, so it loads only if
`drive_watch` loads. -/
def main_module_loads : Bool := drive_watch_loads

/-- C10.  `drive_scanner` exports no `extract_folder_id` (only the
private `_extract_folder_id`), yet `drive_watch` requests exactly that
name, so `drive_watch` fails to import and the main application module
fails with it. -/
theorem drive_watch_import_error :
    "extract_folder_id" ∈ drive_watch_from_drive_scanner
    ∧ "extract_folder_id" ∉ drive_scanner_module_names
    ∧ drive_watch_loads = false
    ∧ main_module_loads = false := by
  refine ⟨by decide, by decide, by decide, by decide⟩
